import Mathlib

/-!
Verification development for the soitun/contracts farming-game server.

The development shallowly embeds the four source files of the repository:

* `src/unnamed/part_000` — the withdraw Lambda handler (`schema`, `VALID_IDS`,
  `handler`);
* `src/unnamed/part_001` — the Jest test file of the save pipeline; the
  implementation of `processActions` / `save` is not part of the repository
  snapshot, so those functions are modelled from the specification, with every
  constant pinned by the behaviour the in-repository tests demand;
* `src/contracts/Token.sol` — the SunflowerLandToken contract (its constructor);
* `src/src/domain/game/lib/transforms.ts` — `makeGame` and `makeInventory`.

Arbitrary-precision decimals (decimal.js-light) are embedded as `ℚ`; all values
occurring in the game are exact decimals, and the library's add/sub/mul on them
are exact.  Timestamps are integer milliseconds.  JavaScript objects keyed by
item name or index are embedded as association lists.
-/

namespace SFL

/-! ## Association-list primitives

JavaScript objects keyed by strings or integers are embedded as association
lists.  `alookup` is property access, `aremove` deletes a key, `aset`
overwrites a key. -/

abbrev ItemName := String

def alookup {α β : Type} [DecidableEq α] : List (α × β) → α → Option β
  | [], _ => none
  | p :: rest, k => if p.1 = k then some p.2 else alookup rest k

def aremove {α β : Type} [DecidableEq α] : List (α × β) → α → List (α × β)
  | [], _ => []
  | p :: rest, k => if p.1 = k then aremove rest k else p :: aremove rest k

def aset {α β : Type} [DecidableEq α] (l : List (α × β)) (k : α) (v : β) :
    List (α × β) :=
  (k, v) :: aremove l k

/-! ## Inventory model

Per the spec (§2 C2, §4.2): a mapping from item name to quantity where
zero-quantity entries are absent.  `getItem` reads a quantity (absent = 0),
`setItem` writes one (removing the entry at zero), `addItem` adds to one. -/

abbrev Inventory := List (ItemName × ℚ)

def getItem (inv : Inventory) (name : ItemName) : ℚ :=
  (alookup inv name).getD 0

def setItem (inv : Inventory) (name : ItemName) (v : ℚ) : Inventory :=
  if v = 0 then aremove inv name else (name, v) :: aremove inv name

def addItem (inv : Inventory) (name : ItemName) (q : ℚ) : Inventory :=
  setItem inv name (getItem inv name + q)

/-! ## Item and recipe catalog

Modelled from the spec: the catalog tables (`src/domain/game/types` and
`types/craftables`, `types/resources`, `lib/constants`) are not part of the
repository snapshot; only their shape and a few entries are pinned by the
spec (§4.1) and by the in-repository tests.  `KNOWN_IDS` keeps the property
the reconcile path relies on: a fixed ordering of item names with on-chain
numeric ids, whose first two entries are the seed items exercised by the
"saves a farm" test. -/

def KNOWN_IDS : List (ItemName × Nat) :=
  [("Sunflower Seed", 101), ("Potato Seed", 102),
   ("Sunflower", 201), ("Potato", 202),
   ("Axe", 301), ("Chicken Coop", 401), ("Wood", 601)]

def KNOWN_ITEMS : List ItemName := KNOWN_IDS.map Prod.fst

/-- Modelled from the spec: tool definitions (`TOOLS` of types/craftables). -/
def TOOL_NAMES : List ItemName := [("Axe" : ItemName)]

/-- Modelled from the spec: limited-edition items (`LimitedItems`),
`craftable = false` in the recipe table. -/
def LIMITED_NAMES : List ItemName := [("Chicken Coop" : ItemName)]

/-- Modelled from the spec: resource items (`RESOURCES`). -/
def RESOURCE_NAMES : List ItemName := [("Wood" : ItemName)]

structure Recipe where
  ingredients : List (ItemName × ℚ)
  sflPrice : ℚ
  craftable : Bool
deriving DecidableEq, Repr

/-- Modelled from the spec: the crafting recipe table (§4.1).  The Potato Seed
price (0.02 SFL, sold from stock, no ingredients) is pinned by the
"saves a farm" test (balance 20 → 19.9 for 5 seeds, stock 7 → 2); Chicken Coop
is a limited item, `craftable = false`, pinned by the
"does not craft a limited edition item" test. -/
def CRAFTABLES : List (ItemName × Recipe) :=
  [("Sunflower Seed", { ingredients := [], sflPrice := 1/100, craftable := true }),
   ("Potato Seed", { ingredients := [], sflPrice := 1/50, craftable := true }),
   ("Axe", { ingredients := [], sflPrice := 1/4, craftable := true }),
   ("Chicken Coop", { ingredients := [("Wood", 10)], sflPrice := 1, craftable := false })]

structure Crop where
  harvestsInto : ItemName
  growSeconds : Int
deriving DecidableEq, Repr

/-- Modelled from the spec: seed → crop table (§4.1); the Sunflower grow time
(60 s) is pinned by the "processes multiple events" test (plant 60 s ago,
harvest now). -/
def CROPS : List (ItemName × Crop) :=
  [("Sunflower Seed", { harvestsInto := "Sunflower", growSeconds := 60 }),
   ("Potato Seed", { harvestsInto := "Potato", growSeconds := 300 })]

/-- Modelled from the spec: sell price table (§4.1). -/
def SELL_PRICES : List (ItemName × ℚ) :=
  [("Sunflower", 1/50), ("Potato", 7/50)]

/-- Modelled from the spec: number of field plots the catalog defines. -/
def FIELD_COUNT : Nat := 22

/-- Modelled from the spec: tree recovery period (§4.1, scenario 6:
recovery = 120 min), in milliseconds. -/
def TREE_RECOVERY_MS : Int := 120 * 60 * 1000

/-- Modelled from the spec: default wood yield of a tree (§4.1: `wood = 3`). -/
def TREE_WOOD : ℚ := 3

/-- Modelled from the spec: the per-item wei unit of `getItemUnit`
(services/web3/utils, absent from the snapshot).  Inventory items have
supply-limited on-chain semantics and convert 1-to-1 (0 fractional digits);
the SFL balance uses 18 fractional digits and is converted separately. -/
def getItemUnitDecimals (_name : ItemName) : Nat := 0

/-- wei → decimal conversion (`fromWei` of web3-utils): divide by `10 ^ d`. -/
def fromWei (amount : ℚ) (d : Nat) : ℚ := amount / 10 ^ d

/-! ## Farm state -/

structure FieldPlot where
  plantedAt : Int
  item : ItemName
deriving DecidableEq, Repr

structure Tree where
  choppedAt : Int
  wood : ℚ
deriving DecidableEq, Repr

structure GameState where
  balance : ℚ
  inventory : Inventory
  stock : Inventory
  fields : List (Nat × FieldPlot)
  trees : List (Nat × Tree)
deriving DecidableEq, Repr

/-- A tree as stored in a farm document (`wood` is a decimal string; the
string is embedded as the rational it denotes). -/
structure StoredTree where
  choppedAt : Int
  wood : ℚ
deriving DecidableEq, Repr

/-- The `gameState` of a farm document held by the repository (§3, §6):
quantities are decimal strings, embedded as the rationals they denote; the
`trees` field may be absent (`Account["gameState"]` of repository/farms). -/
structure StoredGameState where
  balance : ℚ
  inventory : List (ItemName × ℚ)
  stock : List (ItemName × ℚ)
  fields : List (Nat × FieldPlot)
  trees : Option (List (Nat × StoredTree))
deriving DecidableEq, Repr

/-- Modelled from the spec: the default tree template `INITIAL_TREES`
(lib/constants, absent from the snapshot): trees with full wood. -/
def INITIAL_TREES : List (Nat × StoredTree) :=
  [(0, { choppedAt := 0, wood := TREE_WOOD }),
   (1, { choppedAt := 0, wood := TREE_WOOD }),
   (2, { choppedAt := 0, wood := TREE_WOOD }),
   (3, { choppedAt := 0, wood := TREE_WOOD }),
   (4, { choppedAt := 0, wood := TREE_WOOD })]

/-! ## transforms.ts -/

/-- Embeds `makeGame` of src/src/domain/game/lib/transforms.ts: converts the
stored string quantities into decimals and, `In case they were running a
version without the trees`, substitutes `INITIAL_TREES` for an absent `trees`
field (`gameState.trees || INITIAL_TREES`) before the entry-wise conversion
`{ choppedAt: dbTree.choppedAt, wood: new Decimal(dbTree.wood) }`. -/
def makeGame (g : StoredGameState) : GameState :=
  let dbTrees := match g.trees with
    | some ts => ts
    | none => INITIAL_TREES
  { balance := g.balance,
    inventory := g.inventory.foldl (fun acc p => setItem acc p.1 p.2) [],
    stock := g.stock.foldl (fun acc p => setItem acc p.1 p.2) [],
    fields := g.fields,
    trees := dbTrees.foldl
      (fun acc p => acc ++ [(p.1, ({ choppedAt := p.2.choppedAt, wood := p.2.wood } : Tree))]) [] }

/-- Embeds `makeInventory` of src/src/domain/game/lib/transforms.ts: the
on-chain wei amounts are positional in `Object.keys(KNOWN_IDS)` order; each is
converted with `fromWei(amount, getItemUnit(name))` and zero values are
skipped. -/
def makeInventory (amounts : List ℚ) : Inventory :=
  (KNOWN_ITEMS.zip amounts).foldl
    (fun items p =>
      let value := fromWei p.2 (getItemUnitDecimals p.1)
      if value = 0 then items else setItem items p.1 value)
    []

/-- Modelled from the spec: the reconcile step (§4.5) of the save pipeline
(src/domain/game/save.ts, absent from the snapshot — only its test file
src/unnamed/part_001 is present).  The on-chain balance (wei, 18 fractional
digits) overrides the off-chain balance, and every item with a positive
on-chain value overrides the off-chain inventory entry. -/
def reconcile (farm : GameState) (onChainBalanceWei : ℚ)
    (onChainInventory : List ℚ) : GameState :=
  { farm with
    balance := fromWei onChainBalanceWei 18,
    inventory := (makeInventory onChainInventory).foldl
      (fun acc p => setItem acc p.1 p.2) farm.inventory }

/-! ## Actions and the dispatcher

Modelled from the spec: the per-action transitions of the action dispatcher
(§4.4) of src/domain/game (absent from the snapshot); every transition the
claims touch is pinned by the tests of src/unnamed/part_001. -/

inductive Action where
  | planted (index : Nat) (item : ItemName) (createdAt : Int)
  | harvested (index : Nat) (createdAt : Int)
  | chopped (index : Nat) (createdAt : Int)
  | crafted (item : ItemName) (amount : ℚ) (createdAt : Int)
  | sell (item : ItemName) (amount : ℚ) (createdAt : Int)
deriving DecidableEq, Repr

def Action.createdAt : Action → Int
  | .planted _ _ t => t
  | .harvested _ t => t
  | .chopped _ t => t
  | .crafted _ _ t => t
  | .sell _ _ t => t

deriving instance DecidableEq for Except

/-- Modelled from the spec: the `item.planted` transition (§4.4). -/
def plant (s : GameState) (index : Nat) (item : ItemName) (createdAt : Int) :
    Except String GameState :=
  match alookup CROPS item with
  | none => .error "Not a seed"
  | some _ =>
    if FIELD_COUNT ≤ index then .error "Field does not exist"
    else if getItem s.inventory item < 1 then .error "Not enough seeds"
    else match alookup s.fields index with
      | some _ => .error "Field is already planted"
      | none => .ok { s with
          inventory := setItem s.inventory item (getItem s.inventory item - 1),
          fields := aset s.fields index { plantedAt := createdAt, item := item } }

/-- Modelled from the spec: the `item.harvested` transition (§4.4). -/
def harvest (s : GameState) (index : Nat) (createdAt : Int) :
    Except String GameState :=
  match alookup s.fields index with
  | none => .error "Nothing was planted"
  | some field =>
    match alookup CROPS field.item with
    | none => .error "Unknown crop"
    | some crop =>
      if createdAt < field.plantedAt + crop.growSeconds * 1000 then
        .error "The crop is not ripe"
      else .ok { s with
        fields := aremove s.fields index,
        inventory := addItem s.inventory crop.harvestsInto 1 }

/-- Modelled from the spec: the `tree.chopped` transition (§4.4, scenario 6). -/
def chop (s : GameState) (index : Nat) (createdAt : Int) :
    Except String GameState :=
  if getItem s.inventory "Axe" < 1 then .error "No axe"
  else match alookup s.trees index with
  | none => .error "No tree"
  | some tree =>
    let recovered : Option Tree :=
      if tree.wood = 0 then
        if createdAt < tree.choppedAt + TREE_RECOVERY_MS then none
        else some { choppedAt := tree.choppedAt, wood := TREE_WOOD }
      else some tree
    match recovered with
    | none => .error "Tree has not recovered"
    | some tr =>
      let newWood := tr.wood - 1
      .ok { s with
        inventory := addItem (setItem s.inventory "Axe" (getItem s.inventory "Axe" - 1)) "Wood" 1,
        trees := aset s.trees index
          { choppedAt := if newWood = 0 then createdAt else tr.choppedAt,
            wood := newWood } }

/-- Modelled from the spec: the `item.crafted` transition (§4.4).  The recipe
must exist with `craftable = true` — limited items are rejected with
`This item is not craftable: <item>` (pinned by the
"does not craft a limited edition item" test); the inventory must cover each
ingredient cost times amount, the balance must cover `sflPrice × amount`, and
the stock must cover the amount for these stocked SKUs. -/
def craft (s : GameState) (item : ItemName) (amount : ℚ) :
    Except String GameState :=
  match alookup CRAFTABLES item with
  | none => .error ("This item is not craftable: " ++ item)
  | some r =>
    if r.craftable = false then .error ("This item is not craftable: " ++ item)
    else if r.ingredients.any (fun c => decide (getItem s.inventory c.1 < c.2 * amount)) then
      .error "Insufficient ingredients"
    else if s.balance < r.sflPrice * amount then .error "Insufficient funds"
    else if getItem s.stock item < amount then .error "Insufficient stock"
    else .ok { s with
      balance := s.balance - r.sflPrice * amount,
      stock := setItem s.stock item (getItem s.stock item - amount),
      inventory := addItem
        (r.ingredients.foldl
          (fun inv c => setItem inv c.1 (getItem inv c.1 - c.2 * amount))
          s.inventory)
        item amount }

/-- Modelled from the spec: the `item.sell` transition (§4.4). -/
def sellItem (s : GameState) (item : ItemName) (amount : ℚ) :
    Except String GameState :=
  match alookup SELL_PRICES item with
  | none => .error "Not for sale"
  | some price =>
    if amount ≤ 0 then .error "Invalid amount"
    else if getItem s.inventory item < amount then .error "Insufficient inventory"
    else .ok { s with
      inventory := setItem s.inventory item (getItem s.inventory item - amount),
      balance := s.balance + price * amount }

/-- Modelled from the spec: the action dispatcher (§4.4) — a single dispatch
on the action tag to the pure transition. -/
def dispatch (s : GameState) (a : Action) : Except String GameState :=
  match a with
  | .planted index item t => plant s index item t
  | .harvested index t => harvest s index t
  | .chopped index t => chop s index t
  | .crafted item amount _ => craft s item amount
  | .sell item amount _ => sellItem s item amount

/-! ## Temporal gate and replay

Modelled from the spec: `processActions` of src/domain/game/save.ts is absent
from the snapshot; its behaviour is pinned by the `processActions` tests of
src/unnamed/part_001.  The spec's §4.3 thresholds for clock skew (60 s), age
(5 min) and range (2 min) are consistent with those tests.  The spec's
minimum-gap threshold of 10 ms is NOT: the test rejects a 95 ms gap with
`Event fired too quickly` while a 150 ms gap passes, so the gap threshold is
taken as 100 ms.  The spec's density cap of more than 2 actions per 300 ms
window is NOT consistent either: the test rejects three actions spanning
350 ms, so the density check requires each action to come at least 500 ms
after the action two before it (a window of 500 ms may hold at most 2
actions). -/

inductive TemporalError where
  | chrono
  | future
  | old
  | range
  | gap
  | density
deriving DecidableEq, Repr

def TemporalError.message : TemporalError → String
  | .chrono => "Events must be in chronological order"
  | .future => "Event cannot be in the future"
  | .old => "Event is too old"
  | .range => "Event range is too large"
  | .gap => "Event fired too quickly"
  | .density => "Too many events in a short time"

def MAX_SKEW_MS : Int := 60 * 1000

def MAX_AGE_MS : Int := 5 * 60 * 1000

def MAX_RANGE_MS : Int := 2 * 60 * 1000

def MIN_GAP_MS : Int := 100

def DENSITY_WINDOW_MS : Int := 500

def chronoViolated (prev : Option Int) (t : Int) : Bool :=
  match prev with
  | some p => decide (t < p)
  | none => false

def gapViolated (prev : Option Int) (t : Int) : Bool :=
  match prev with
  | some p => decide (t - p < MIN_GAP_MS)
  | none => false

def densityViolated (prev2 : Option Int) (t : Int) : Bool :=
  match prev2 with
  | some q => decide (t - q < DENSITY_WINDOW_MS)
  | none => false

/-- The temporal checks run for one action: `t` is its timestamp, `firstAt`
the first action's, `prev` and `prev2` those of the one and two preceding
actions. -/
def checkTimestamp (now firstAt : Int) (prev prev2 : Option Int) (t : Int) :
    Option TemporalError :=
  if chronoViolated prev t then some .chrono
  else if now + MAX_SKEW_MS < t then some .future
  else if t < now - MAX_AGE_MS then some .old
  else if MAX_RANGE_MS < t - firstAt then some .range
  else if gapViolated prev t then some .gap
  else if densityViolated prev2 t then some .density
  else none

/-- The replay loop: each action is temporally checked against its
predecessors and then dispatched; the first error aborts the whole batch. -/
def processLoop (now firstAt : Int) (prev prev2 : Option Int) (s : GameState) :
    List Action → Except String GameState
  | [] => .ok s
  | a :: rest =>
    match checkTimestamp now firstAt prev prev2 a.createdAt with
    | some e => .error e.message
    | none =>
      match dispatch s a with
      | .error msg => .error msg
      | .ok s' => processLoop now firstAt (some a.createdAt) prev s' rest

/-- Modelled from the spec: `processActions` (§4.3, §4.4, §4.6 step 4). -/
def processActions (now : Int) (state : GameState) (actions : List Action) :
    Except String GameState :=
  match actions with
  | [] => .ok state
  | a :: _ => processLoop now a.createdAt none none state actions

/-- The temporal gate alone, over the timestamps of a batch: the first
temporal error the replay loop would raise, ignoring dispatch. -/
def temporalGateLoop (now firstAt : Int) (prev prev2 : Option Int) :
    List Int → Option TemporalError
  | [] => none
  | t :: rest =>
    match checkTimestamp now firstAt prev prev2 t with
    | some e => some e
    | none => temporalGateLoop now firstAt (some t) prev rest

def temporalGate (now : Int) (actions : List Action) : Option TemporalError :=
  match actions.map Action.createdAt with
  | [] => none
  | t :: ts => temporalGateLoop now t none none (t :: ts)

/-- Modelled from the spec: the save pipeline (§4.6) — load the farm document,
reconcile with the on-chain balance and inventory (§4.5), replay the batch,
and persist/return the resulting state.  All errors are terminal: no state is
produced on any failure. -/
def save (now : Int) (farm : Option StoredGameState) (onChainBalanceWei : ℚ)
    (onChainInventory : List ℚ) (actions : List Action) :
    Except String GameState :=
  match farm with
  | none => .error "Farm does not exist"
  | some doc =>
    processActions now (reconcile (makeGame doc) onChainBalanceWei onChainInventory) actions

/-! ## SunflowerLandToken (src/contracts/Token.sol) -/

/-- The contract storage the constructor touches: the `gameRoles` mapping and
the private `team` address.  Addresses are embedded as naturals, the zero
address as `0`. -/
structure TokenState where
  gameRoles : List Nat
  team : Nat
deriving DecidableEq, Repr

/-- Embeds the constructor of `SunflowerLandToken` (src/contracts/Token.sol
lines 12–16).  Solidity storage starts zeroed, so `team = 0` on entry.  The
body runs `gameRoles[msg.sender] = true;` and then `_team = team;` — an
assignment INTO the local parameter `_team` FROM the storage variable `team`,
which therefore never writes storage.  `_game` is not used by the body at
all. -/
def constructorRun (_game _team msgSender : Nat) : TokenState :=
  let storage : TokenState := { gameRoles := [], team := 0 }
  let storage := { storage with gameRoles := msgSender :: storage.gameRoles }
  let _team := storage.team
  storage

/-! ## The withdraw handler (src/unnamed/part_000) -/

/-- The `WithdrawBody` of the handler.  `sfl` and the `amounts` entries are
decimal strings, embedded as the rationals they denote. -/
structure WithdrawBody where
  farmId : Nat
  sessionId : String
  sender : String
  signature : String
  sfl : ℚ
  ids : List Nat
  amounts : List ℚ
deriving DecidableEq, Repr

/-- Embeds `VALID_ITEMS` of src/unnamed/part_000: the keys of
`{...TOOLS, ...LimitedItems, ...RESOURCES}`. -/
def VALID_ITEMS : List ItemName := TOOL_NAMES ++ LIMITED_NAMES ++ RESOURCE_NAMES

/-- Embeds `VALID_IDS` of src/unnamed/part_000:
`VALID_ITEMS.map((id) => KNOWN_IDS[id])`. -/
def VALID_IDS : List Nat := VALID_ITEMS.map (fun n => (alookup KNOWN_IDS n).getD 0)

/-- Modelled from the spec: `getTax` of src/domain/game/withdraw (absent from
the snapshot): a piecewise function of the SFL amount, returned in basis
points, with a 5 % floor (§4.7). -/
def getTax (sfl : ℚ) : Nat :=
  if sfl < 10 then 3000
  else if sfl < 100 then 2500
  else if sfl < 1000 then 2000
  else if sfl < 5000 then 1000
  else 500

/-- Embeds the Joi `schema` of src/unnamed/part_000.  The required fields are
guaranteed present by the record type; `ids` entries must each be one of
`VALID_IDS`; both arrays carry `.min(0)`, which every array satisfies — and
no relation between `ids.length` and `amounts.length` is checked. -/
def schemaValidate (b : WithdrawBody) : Bool :=
  b.ids.all (fun i => VALID_IDS.contains i)
    && decide (0 ≤ b.ids.length) && decide (0 ≤ b.amounts.length)

/-- The payload the handler passes to `withdrawSignature`. -/
structure WithdrawPayload where
  sender : String
  farmId : Nat
  sessionId : String
  sfl : ℚ
  ids : List Nat
  amounts : List ℚ
  tax : Nat
deriving DecidableEq, Repr

/-- Embeds `handler` of src/unnamed/part_000.  The external collaborators are
abstracted by arguments: `verifyOk` is the outcome of `verifyAccount`,
`whitelisted` that of `canSync`, `network` is `process.env.NETWORK`.  On
success the handler forwards the body's `ids` and `amounts` verbatim to the
signer together with `getTax(sfl)`. -/
def handler (verifyOk : Bool) (network : String) (whitelisted : Bool)
    (b : WithdrawBody) : Except String WithdrawPayload :=
  if schemaValidate b = false then .error "Validation error"
  else if verifyOk = false then .error "Unable to verify account"
  else if network ≠ "mumbai" ∧ whitelisted = false then .error "Not on whitelist"
  else .ok
    { sender := b.sender, farmId := b.farmId, sessionId := b.sessionId,
      sfl := b.sfl, ids := b.ids, amounts := b.amounts, tax := getTax b.sfl }

/-! ## Concrete fixtures from the test file (src/unnamed/part_001) -/

/-- The farm document of the "saves a farm" and "does not craft a limited
edition item" tests: `{fields: {}, inventory: {}, stock: {"Potato Seed": "7"},
balance: "20"}` (no `trees` field). -/
def savesAFarmDoc : StoredGameState :=
  { balance := 20, inventory := [], stock := [("Potato Seed", 7)],
    fields := [], trees := none }

/-- The persisted session the "saves a farm" test pins in its
`updateGameStateMock` expectation: `balance "19.9"`, `stock
{"Potato Seed": "2"}`, `inventory {"Potato Seed": "5"}`, `fields {}`. -/
def savesAFarmPersisted : StoredGameState :=
  { balance := 199/10, inventory := [("Potato Seed", 5)],
    stock := [("Potato Seed", 2)], fields := [], trees := none }

/-- The farm the temporal tests run on: `INITIAL_FARM` with the inventory
override `{ Sunflower: new Decimal(1000) }`. -/
def sellerFarm : GameState :=
  { balance := 0, inventory := [("Sunflower", 1000)], stock := [],
    fields := [], trees := [] }

/-- The farm of the "ensures events are in order" test: `INITIAL_FARM` with
one Sunflower Seed. -/
def seedFarm : GameState :=
  { balance := 0, inventory := [("Sunflower Seed", 1)], stock := [],
    fields := [], trees := [] }

/-- The out-of-order batch of the "ensures events are in order" test:
plant now, harvest 60 s ago. -/
def chronoBatch : List Action :=
  [Action.planted 4 "Sunflower Seed" 0, Action.harvested 4 (-60000)]

/-- The batch of the "processes multiple events" test: plant 60 s ago,
harvest now. -/
def multiBatch : List Action :=
  [Action.planted 4 "Sunflower Seed" (-60000), Action.harvested 4 0]

/-- The batch of the "ensures events are not fired too quickly after one
another" test: two sells at T−100 ms and T−5 ms, 95 ms apart. -/
def gapBatch : List Action :=
  [Action.sell "Sunflower" 1 (-100), Action.sell "Sunflower" 1 (-5)]

/-- The batch of the "ensures all events are done in a time humanly possible"
test: three sells at T−400 ms, T−250 ms and T−50 ms. -/
def densityBatch : List Action :=
  [Action.sell "Sunflower" 1 (-400), Action.sell "Sunflower" 1 (-250),
   Action.sell "Sunflower" 1 (-50)]

/-- The state that replaying the "saves a farm" craft action over the test
document — without any reconciliation — produces; its serialization is
exactly what the test pins in the `updateGameStateMock` expectation. -/
def replayedPersistedState : GameState :=
  { balance := 199/10, inventory := [("Potato Seed", 5)],
    stock := [("Potato Seed", 2)], fields := [],
    trees := [(0, { choppedAt := 0, wood := 3 }), (1, { choppedAt := 0, wood := 3 }),
              (2, { choppedAt := 0, wood := 3 }), (3, { choppedAt := 0, wood := 3 }),
              (4, { choppedAt := 0, wood := 3 })] }

/-- The state the spec's reconcile-then-replay pipeline (§4.5–§4.6) produces
on the very same input. -/
def reconciledReplayState : GameState :=
  { balance := 1199/10, inventory := [("Potato Seed", 7), ("Sunflower Seed", 1)],
    stock := [("Potato Seed", 2)], fields := [],
    trees := [(0, { choppedAt := 0, wood := 3 }), (1, { choppedAt := 0, wood := 3 }),
              (2, { choppedAt := 0, wood := 3 }), (3, { choppedAt := 0, wood := 3 }),
              (4, { choppedAt := 0, wood := 3 })] }

/-- A withdraw body whose `ids` and `amounts` lengths disagree (1 vs 0); every
per-field schema check passes. -/
def mismatchedBody : WithdrawBody :=
  { farmId := 13, sessionId := "0x01", sender := "0xA9", signature := "0xsig",
    sfl := 5, ids := [301], amounts := [] }

/-- A withdraw body holding an id (999) outside `VALID_IDS`. -/
def badIdBody : WithdrawBody :=
  { farmId := 13, sessionId := "0x01", sender := "0xA9", signature := "0xsig",
    sfl := 5, ids := [999], amounts := [1] }

/-- A stored farm document carrying an explicit `trees` field. -/
def storedWithTrees : StoredGameState :=
  { balance := 20, inventory := [], stock := [], fields := [],
    trees := some [(0, { choppedAt := 7, wood := 2 })] }

/-! ## Helper lemmas on association lists and inventories -/

lemma alookup_aremove_self {α β : Type} [DecidableEq α] (l : List (α × β)) (k : α) :
    alookup (aremove l k) k = none := by
  induction l with
  | nil => rfl
  | cons p rest ih =>
    by_cases h : p.1 = k
    · simpa [aremove, h] using ih
    · simp [aremove, h, alookup, ih]

lemma alookup_aremove_ne {α β : Type} [DecidableEq α] (l : List (α × β)) (k k' : α)
    (h : k' ≠ k) : alookup (aremove l k) k' = alookup l k' := by
  induction l with
  | nil => rfl
  | cons p rest ih =>
    by_cases hp : p.1 = k
    · simp [aremove, hp, alookup, Ne.symm h, ih]
    · by_cases hq : p.1 = k' <;> simp [aremove, hp, alookup, hq, ih, h]

lemma getItem_setItem_self (l : Inventory) (n : ItemName) (v : ℚ) :
    getItem (setItem l n v) n = v := by
  by_cases h : v = 0
  · simp [setItem, h, getItem, alookup_aremove_self]
  · simp [setItem, h, getItem, alookup]

lemma getItem_setItem_ne (l : Inventory) (n m : ItemName) (v : ℚ) (h : m ≠ n) :
    getItem (setItem l n v) m = getItem l m := by
  by_cases hv : v = 0
  · simp [setItem, hv, getItem, alookup_aremove_ne l n m h]
  · simp [setItem, hv, getItem, alookup, Ne.symm h, alookup_aremove_ne l n m h]

lemma alookup_setItem_ne (l : Inventory) (n m : ItemName) (v : ℚ) (h : m ≠ n) :
    alookup (setItem l n v) m = alookup l m := by
  by_cases hv : v = 0
  · simp [setItem, hv, alookup_aremove_ne l n m h]
  · simp [setItem, hv, alookup, Ne.symm h, alookup_aremove_ne l n m h]

lemma alookup_setItem_self (l : Inventory) (n : ItemName) (v : ℚ) (h : v ≠ 0) :
    alookup (setItem l n v) n = some v := by
  simp [setItem, h, alookup]

lemma mem_of_alookup {α β : Type} [DecidableEq α] {l : List (α × β)} {k : α} {v : β}
    (h : alookup l k = some v) : (k, v) ∈ l := by
  induction l with
  | nil => simp [alookup] at h
  | cons p rest ih =>
    by_cases hp : p.1 = k
    · simp only [alookup, if_pos hp, Option.some.injEq] at h
      exact List.mem_cons.mpr (Or.inl (by rw [← hp, ← h]))
    · simp only [alookup, if_neg hp] at h
      exact List.mem_cons_of_mem _ (ih h)

lemma not_mem_map_fst_aremove {α β : Type} [DecidableEq α] (l : List (α × β)) (k : α) :
    k ∉ (aremove l k).map Prod.fst := by
  induction l with
  | nil => simp [aremove]
  | cons p rest ih =>
    by_cases hp : p.1 = k
    · simpa [aremove, hp] using ih
    · simp only [aremove, if_neg hp, List.map_cons, List.mem_cons, not_or]
      exact ⟨fun hh => hp hh.symm, ih⟩

lemma mem_map_fst_aremove {α β : Type} [DecidableEq α] (l : List (α × β)) (k m : α)
    (h : m ∈ (aremove l k).map Prod.fst) : m ∈ l.map Prod.fst := by
  induction l with
  | nil => simp [aremove] at h
  | cons p rest ih =>
    by_cases hp : p.1 = k
    · simp only [aremove, if_pos hp] at h
      exact List.mem_cons_of_mem _ (ih h)
    · simp only [aremove, if_neg hp, List.map_cons, List.mem_cons] at h ⊢
      rcases h with h | h
      · exact Or.inl h
      · exact Or.inr (ih h)

lemma nodup_map_fst_aremove {α β : Type} [DecidableEq α] (l : List (α × β)) (k : α)
    (h : (l.map Prod.fst).Nodup) : ((aremove l k).map Prod.fst).Nodup := by
  induction l with
  | nil => simp [aremove]
  | cons p rest ih =>
    simp only [List.map_cons, List.nodup_cons] at h
    by_cases hp : p.1 = k
    · simp only [aremove, if_pos hp]
      exact ih h.2
    · simp only [aremove, if_neg hp, List.map_cons, List.nodup_cons]
      exact ⟨fun hm => h.1 (mem_map_fst_aremove rest k p.1 hm), ih h.2⟩

lemma nodup_map_fst_setItem (l : Inventory) (n : ItemName) (v : ℚ)
    (h : (l.map Prod.fst).Nodup) : ((setItem l n v).map Prod.fst).Nodup := by
  by_cases hv : v = 0
  · simp only [setItem, if_pos hv]
    exact nodup_map_fst_aremove l n h
  · simp only [setItem, if_neg hv, List.map_cons, List.nodup_cons]
    exact ⟨not_mem_map_fst_aremove l n, nodup_map_fst_aremove l n h⟩

lemma nodup_map_fst_zip {α β : Type} (l1 : List α) (l2 : List β) (h : l1.Nodup) :
    ((l1.zip l2).map Prod.fst).Nodup := by
  induction l1 generalizing l2 with
  | nil => simp
  | cons a l1 ih =>
    cases l2 with
    | nil => simp
    | cons b l2 =>
      simp only [List.zip_cons_cons, List.map_cons, List.nodup_cons] at h ⊢
      refine ⟨fun hm => ?_, ih l2 h.2⟩
      rcases List.mem_map.mp hm with ⟨p, hp, hfst⟩
      exact h.1 (by simpa [hfst] using (List.of_mem_zip hp).1)

/-! ## Helper lemmas on the inventory folds of the reconcile and craft paths -/

lemma ovFold_getItem_not_mem (l : List (ItemName × ℚ)) (acc : Inventory) (n : ItemName)
    (h : n ∉ l.map Prod.fst) :
    getItem (l.foldl (fun a p => setItem a p.1 p.2) acc) n = getItem acc n := by
  induction l generalizing acc with
  | nil => rfl
  | cons p rest ih =>
    simp only [List.map_cons, List.mem_cons, not_or] at h
    simp only [List.foldl_cons]
    rw [ih _ h.2]
    exact getItem_setItem_ne acc p.1 n p.2 h.1

lemma ovFold_getItem_mem (l : List (ItemName × ℚ)) (acc : Inventory) (n : ItemName) (v : ℚ)
    (hnd : (l.map Prod.fst).Nodup) (hm : (n, v) ∈ l) :
    getItem (l.foldl (fun a p => setItem a p.1 p.2) acc) n = v := by
  induction l generalizing acc with
  | nil => simp at hm
  | cons p rest ih =>
    simp only [List.map_cons, List.nodup_cons] at hnd
    simp only [List.foldl_cons]
    rcases List.mem_cons.mp hm with h | h
    · have hn : n ∉ rest.map Prod.fst := by
        rw [show n = p.1 by rw [← h]]
        exact hnd.1
      rw [ovFold_getItem_not_mem _ _ _ hn, ← h]
      exact getItem_setItem_self _ _ _
    · exact ih (setItem acc p.1 p.2) hnd.2 h

lemma ingFold_getItem_not_mem (amount : ℚ) (l : List (ItemName × ℚ)) (acc : Inventory)
    (n : ItemName) (h : n ∉ l.map Prod.fst) :
    getItem (l.foldl (fun inv c => setItem inv c.1 (getItem inv c.1 - c.2 * amount)) acc) n =
      getItem acc n := by
  induction l generalizing acc with
  | nil => rfl
  | cons p rest ih =>
    simp only [List.map_cons, List.mem_cons, not_or] at h
    simp only [List.foldl_cons]
    rw [ih _ h.2]
    exact getItem_setItem_ne acc p.1 n _ h.1

lemma ingFold_getItem_mem (amount : ℚ) (l : List (ItemName × ℚ)) (acc : Inventory)
    (n : ItemName) (c : ℚ) (hnd : (l.map Prod.fst).Nodup) (hm : (n, c) ∈ l) :
    getItem (l.foldl (fun inv cc => setItem inv cc.1 (getItem inv cc.1 - cc.2 * amount)) acc) n =
      getItem acc n - c * amount := by
  induction l generalizing acc with
  | nil => simp at hm
  | cons p rest ih =>
    simp only [List.map_cons, List.nodup_cons] at hnd
    simp only [List.foldl_cons]
    rcases List.mem_cons.mp hm with h | h
    · have hp1 : p.1 = n := by rw [← h]
      have hp2 : p.2 = c := by rw [← h]
      have hn : n ∉ rest.map Prod.fst := by rw [← hp1]; exact hnd.1
      rw [ingFold_getItem_not_mem _ _ _ _ hn, hp1, hp2, getItem_setItem_self]
    · have hne : n ≠ p.1 := by
        intro hh
        rw [hh] at h
        exact hnd.1 (List.mem_map.mpr ⟨(p.1, c), h, rfl⟩)
      rw [ih (setItem acc p.1 (getItem acc p.1 - p.2 * amount)) hnd.2 h,
        getItem_setItem_ne acc p.1 n _ hne]

lemma skimFold_alookup_not_mem (l : List (ItemName × ℚ)) (acc : Inventory) (n : ItemName)
    (h : n ∉ l.map Prod.fst) :
    alookup (l.foldl
      (fun items p =>
        let value := fromWei p.2 (getItemUnitDecimals p.1)
        if value = 0 then items else setItem items p.1 value) acc) n = alookup acc n := by
  induction l generalizing acc with
  | nil => rfl
  | cons p rest ih =>
    simp only [List.map_cons, List.mem_cons, not_or] at h
    simp only [List.foldl_cons]
    rw [ih _ h.2]
    by_cases hz : fromWei p.2 (getItemUnitDecimals p.1) = 0
    · simp [hz]
    · simp only [if_neg hz]
      exact alookup_setItem_ne _ _ _ _ h.1

lemma skimFold_alookup_mem (l : List (ItemName × ℚ)) (acc : Inventory) (n : ItemName)
    (amt : ℚ) (hnd : (l.map Prod.fst).Nodup) (hm : (n, amt) ∈ l)
    (hnz : fromWei amt (getItemUnitDecimals n) ≠ 0) :
    alookup (l.foldl
      (fun items p =>
        let value := fromWei p.2 (getItemUnitDecimals p.1)
        if value = 0 then items else setItem items p.1 value) acc) n =
      some (fromWei amt (getItemUnitDecimals n)) := by
  induction l generalizing acc with
  | nil => simp at hm
  | cons p rest ih =>
    simp only [List.map_cons, List.nodup_cons] at hnd
    simp only [List.foldl_cons]
    rcases List.mem_cons.mp hm with h | h
    · have hp1 : p.1 = n := by rw [← h]
      have hp2 : p.2 = amt := by rw [← h]
      have hn : n ∉ rest.map Prod.fst := by rw [← hp1]; exact hnd.1
      rw [skimFold_alookup_not_mem _ _ _ hn]
      simp only [hp1, hp2, if_neg hnz]
      exact alookup_setItem_self _ _ _ hnz
    · exact ih _ hnd.2 h

lemma KNOWN_ITEMS_nodup : KNOWN_ITEMS.Nodup := by decide

lemma alookup_makeInventory (amounts : List ℚ) (n : ItemName) (amt : ℚ)
    (hm : (n, amt) ∈ KNOWN_ITEMS.zip amounts)
    (hnz : fromWei amt (getItemUnitDecimals n) ≠ 0) :
    alookup (makeInventory amounts) n = some (fromWei amt (getItemUnitDecimals n)) := by
  unfold makeInventory
  exact skimFold_alookup_mem _ _ _ _
    (nodup_map_fst_zip _ _ KNOWN_ITEMS_nodup) hm hnz

lemma skimFold_nodup (l : List (ItemName × ℚ)) (acc : Inventory)
    (h : (acc.map Prod.fst).Nodup) :
    ((l.foldl
      (fun items p =>
        let value := fromWei p.2 (getItemUnitDecimals p.1)
        if value = 0 then items else setItem items p.1 value) acc).map Prod.fst).Nodup := by
  induction l generalizing acc with
  | nil => exact h
  | cons p rest ih =>
    simp only [List.foldl_cons]
    apply ih
    by_cases hz : fromWei p.2 (getItemUnitDecimals p.1) = 0
    · simpa [hz] using h
    · simp only [hz, if_neg]
      exact nodup_map_fst_setItem _ _ _ h

lemma makeInventory_nodup (amounts : List ℚ) :
    ((makeInventory amounts).map Prod.fst).Nodup := by
  unfold makeInventory
  exact skimFold_nodup _ _ (by simp)

/-! ## Helper lemmas on the temporal gate -/

lemma checkTimestamp_eq_gap (now firstAt : Int) (prev prev2 : Option Int) (t : Int)
    (h : checkTimestamp now firstAt prev prev2 t = some TemporalError.gap) :
    gapViolated prev t = true := by
  unfold checkTimestamp at h
  split at h
  · exact absurd h (by decide)
  split at h
  · exact absurd h (by decide)
  split at h
  · exact absurd h (by decide)
  split at h
  · exact absurd h (by decide)
  split at h
  · assumption
  split at h
  · exact absurd h (by decide)
  · exact absurd h (by decide)

lemma checkTimestamp_eq_density (now firstAt : Int) (prev prev2 : Option Int) (t : Int)
    (h : checkTimestamp now firstAt prev prev2 t = some TemporalError.density) :
    densityViolated prev2 t = true := by
  unfold checkTimestamp at h
  split at h
  · exact absurd h (by decide)
  split at h
  · exact absurd h (by decide)
  split at h
  · exact absurd h (by decide)
  split at h
  · exact absurd h (by decide)
  split at h
  · exact absurd h (by decide)
  split at h
  · assumption
  · exact absurd h (by decide)

lemma checkTimestamp_eq_none (now firstAt : Int) (prev prev2 : Option Int) (t : Int)
    (h : checkTimestamp now firstAt prev prev2 t = none) :
    gapViolated prev t = false ∧ densityViolated prev2 t = false := by
  unfold checkTimestamp at h
  split at h
  · exact absurd h (by decide)
  split at h
  · exact absurd h (by decide)
  split at h
  · exact absurd h (by decide)
  split at h
  · exact absurd h (by decide)
  split at h
  · exact absurd h (by decide)
  split at h
  · exact absurd h (by decide)
  next h5 h6 => exact ⟨by simpa using h5, by simpa using h6⟩

lemma gateLoop_gap_sound (now firstAt : Int) (prev prev2 : Option Int) (ts : List Int)
    (h : temporalGateLoop now firstAt prev prev2 ts = some TemporalError.gap) :
    (∃ p ∈ ts.zip ts.tail, p.2 - p.1 < MIN_GAP_MS) ∨
      (∃ p t0, prev = some p ∧ ts.head? = some t0 ∧ t0 - p < MIN_GAP_MS) := by
  induction ts generalizing prev prev2 with
  | nil => simp [temporalGateLoop] at h
  | cons t rest ih =>
    cases hc : checkTimestamp now firstAt prev prev2 t with
    | some e =>
      simp only [temporalGateLoop, hc] at h
      have he : e = TemporalError.gap := by simpa using h
      subst he
      have hg := checkTimestamp_eq_gap _ _ _ _ _ hc
      unfold gapViolated at hg
      cases prev with
      | none => simp at hg
      | some p =>
        right
        exact ⟨p, t, rfl, rfl, by simpa using hg⟩
    | none =>
      simp only [temporalGateLoop, hc] at h
      rcases ih (some t) prev h with hL | hR
      · left
        rcases hL with ⟨p, hp, hlt⟩
        refine ⟨p, ?_, hlt⟩
        cases rest with
        | nil => simp at hp
        | cons r rs =>
          simp only [List.tail_cons, List.zip_cons_cons]
          exact List.mem_cons_of_mem _ hp
      · rcases hR with ⟨p, t0, hprev, hhead, hlt⟩
        left
        cases rest with
        | nil => simp at hhead
        | cons r rs =>
          have hpt : p = t := by
            have h1 : t = p := by simpa using hprev
            exact h1.symm
          have ht0 : t0 = r := by
            have h1 : r = t0 := by simpa using hhead
            exact h1.symm
          refine ⟨(t, r), by simp [List.zip_cons_cons], ?_⟩
          rw [ht0, hpt] at hlt
          exact hlt

lemma gateLoop_ne_none_of_gap (now firstAt : Int) (prev prev2 : Option Int) (ts : List Int)
    (h : (∃ p t0, prev = some p ∧ ts.head? = some t0 ∧ t0 - p < MIN_GAP_MS) ∨
         (∃ p ∈ ts.zip ts.tail, p.2 - p.1 < MIN_GAP_MS)) :
    temporalGateLoop now firstAt prev prev2 ts ≠ none := by
  induction ts generalizing prev prev2 with
  | nil =>
    rcases h with ⟨p, t0, _, hh, _⟩ | ⟨p, hp, _⟩
    · simp at hh
    · simp at hp
  | cons t rest ih =>
    cases hc : checkTimestamp now firstAt prev prev2 t with
    | some e => simp [temporalGateLoop, hc]
    | none =>
      simp only [temporalGateLoop, hc]
      apply ih (some t) prev
      rcases h with ⟨p, t0, hprev, hhead, hlt⟩ | ⟨p, hp, hlt⟩
      · exfalso
        have ht0 : t = t0 := by simpa using hhead
        have hg : gapViolated prev t = true := by
          unfold gapViolated
          rw [hprev, ht0]
          simpa using hlt
        rw [(checkTimestamp_eq_none _ _ _ _ _ hc).1] at hg
        exact absurd hg (by decide)
      · cases rest with
        | nil => simp at hp
        | cons r rs =>
          simp only [List.tail_cons, List.zip_cons_cons, List.mem_cons] at hp
          rcases hp with hp | hp
          · left
            refine ⟨t, r, rfl, rfl, ?_⟩
            rw [hp] at hlt
            exact hlt
          · right
            exact ⟨p, hp, hlt⟩

lemma gateLoop_density_sound (now firstAt : Int) (prev prev2 : Option Int) (ts : List Int)
    (h : temporalGateLoop now firstAt prev prev2 ts = some TemporalError.density) :
    (∃ p ∈ ts.zip ts.tail.tail, p.2 - p.1 < DENSITY_WINDOW_MS) ∨
      (∃ q t0, prev2 = some q ∧ ts.head? = some t0 ∧ t0 - q < DENSITY_WINDOW_MS) ∨
      (∃ p t1, prev = some p ∧ ts.tail.head? = some t1 ∧ t1 - p < DENSITY_WINDOW_MS) := by
  induction ts generalizing prev prev2 with
  | nil => simp [temporalGateLoop] at h
  | cons t rest ih =>
    cases hc : checkTimestamp now firstAt prev prev2 t with
    | some e =>
      simp only [temporalGateLoop, hc] at h
      have he : e = TemporalError.density := by simpa using h
      subst he
      have hg := checkTimestamp_eq_density _ _ _ _ _ hc
      unfold densityViolated at hg
      cases prev2 with
      | none => simp at hg
      | some q =>
        right; left
        exact ⟨q, t, rfl, rfl, by simpa using hg⟩
    | none =>
      simp only [temporalGateLoop, hc] at h
      rcases ih (some t) prev h with hA | hB | hC
      · left
        rcases hA with ⟨p, hp, hlt⟩
        refine ⟨p, ?_, hlt⟩
        cases rest with
        | nil => simp at hp
        | cons r rs =>
          cases rs with
          | nil => simp at hp
          | cons r2 rs2 =>
            simp only [List.tail_cons, List.zip_cons_cons]
            exact List.mem_cons_of_mem _ hp
      · rcases hB with ⟨q, t0, hprev, hhead, hlt⟩
        right; right
        exact ⟨q, t0, hprev, by simp only [List.tail_cons]; exact hhead, hlt⟩
      · rcases hC with ⟨p, t1, hprev, hhead, hlt⟩
        left
        cases rest with
        | nil => simp at hhead
        | cons r rs =>
          simp only [List.tail_cons] at hhead
          cases rs with
          | nil => simp at hhead
          | cons r2 rs2 =>
            have hpt : p = t := by
              have h1 : t = p := by simpa using hprev
              exact h1.symm
            have ht1 : t1 = r2 := by
              have h1 : r2 = t1 := by simpa using hhead
              exact h1.symm
            refine ⟨(t, r2), by simp [List.zip_cons_cons], ?_⟩
            rw [ht1, hpt] at hlt
            exact hlt

lemma gateLoop_ne_none_of_density (now firstAt : Int) (prev prev2 : Option Int) (ts : List Int)
    (h : (∃ q t0, prev2 = some q ∧ ts.head? = some t0 ∧ t0 - q < DENSITY_WINDOW_MS) ∨
         (∃ p t1, prev = some p ∧ ts.tail.head? = some t1 ∧ t1 - p < DENSITY_WINDOW_MS) ∨
         (∃ p ∈ ts.zip ts.tail.tail, p.2 - p.1 < DENSITY_WINDOW_MS)) :
    temporalGateLoop now firstAt prev prev2 ts ≠ none := by
  induction ts generalizing prev prev2 with
  | nil =>
    rcases h with ⟨q, t0, _, hh, _⟩ | ⟨p, t1, _, hh, _⟩ | ⟨p, hp, _⟩
    · simp at hh
    · simp at hh
    · simp at hp
  | cons t rest ih =>
    cases hc : checkTimestamp now firstAt prev prev2 t with
    | some e => simp [temporalGateLoop, hc]
    | none =>
      simp only [temporalGateLoop, hc]
      apply ih (some t) prev
      rcases h with ⟨q, t0, hprev2, hhead, hlt⟩ | ⟨p, t1, hprev, hhead, hlt⟩ | ⟨p, hp, hlt⟩
      · exfalso
        have ht0 : t = t0 := by simpa using hhead
        have hg : densityViolated prev2 t = true := by
          unfold densityViolated
          rw [hprev2, ht0]
          simpa using hlt
        rw [(checkTimestamp_eq_none _ _ _ _ _ hc).2] at hg
        exact absurd hg (by decide)
      · left
        simp only [List.tail_cons] at hhead
        exact ⟨p, t1, hprev, hhead, hlt⟩
      · cases rest with
        | nil => simp at hp
        | cons r rs =>
          cases rs with
          | nil => simp at hp
          | cons r2 rs2 =>
            simp only [List.tail_cons, List.zip_cons_cons, List.mem_cons] at hp
            rcases hp with hp | hp
            · right; left
              refine ⟨t, r2, rfl, rfl, ?_⟩
              rw [hp] at hlt
              exact hlt
            · right; right
              exact ⟨p, hp, hlt⟩

lemma processLoop_ne_ok_of_gate (now firstAt : Int) (prev prev2 : Option Int)
    (s : GameState) (l : List Action) (e : TemporalError)
    (h : temporalGateLoop now firstAt prev prev2 (l.map Action.createdAt) = some e) :
    ∀ s', processLoop now firstAt prev prev2 s l ≠ Except.ok s' := by
  induction l generalizing prev prev2 s with
  | nil => simp [temporalGateLoop] at h
  | cons a rest ih =>
    intro s' hok
    rw [List.map_cons] at h
    cases hc : checkTimestamp now firstAt prev prev2 a.createdAt with
    | some e2 =>
      simp only [processLoop, hc] at hok
      exact Except.noConfusion hok
    | none =>
      simp only [temporalGateLoop, hc] at h
      simp only [processLoop, hc] at hok
      cases hd : dispatch s a with
      | error msg => rw [hd] at hok; exact Except.noConfusion hok
      | ok s2 =>
        rw [hd] at hok
        exact ih (some a.createdAt) prev s2 h s' hok

/-! ## Helper lemmas on the craft transition -/

lemma craft_limited (s : GameState) (item : ItemName) (amount : ℚ) (r : Recipe)
    (hr : alookup CRAFTABLES item = some r) (hc : r.craftable = false) :
    craft s item amount = Except.error ("This item is not craftable: " ++ item) := by
  unfold craft
  rw [hr]
  simp [hc]

lemma processLoop_limited_ne_ok (now firstAt : Int) (prev prev2 : Option Int)
    (s : GameState) (l : List Action) (item : ItemName) (r : Recipe)
    (hr : alookup CRAFTABLES item = some r) (hc : r.craftable = false)
    (hm : ∃ amt t, Action.crafted item amt t ∈ l) :
    ∀ s', processLoop now firstAt prev prev2 s l ≠ Except.ok s' := by
  induction l generalizing prev prev2 s with
  | nil =>
    rcases hm with ⟨amt, t, hmem⟩
    simp at hmem
  | cons a rest ih =>
    intro s' hok
    rcases hm with ⟨amt, t, hmem⟩
    cases hchk : checkTimestamp now firstAt prev prev2 a.createdAt with
    | some e =>
      simp only [processLoop, hchk] at hok
      exact Except.noConfusion hok
    | none =>
      simp only [processLoop, hchk] at hok
      cases hd : dispatch s a with
      | error msg => rw [hd] at hok; exact Except.noConfusion hok
      | ok s2 =>
        rw [hd] at hok
        rcases List.mem_cons.mp hmem with ha | ha
        · rw [← ha] at hd
          simp only [dispatch] at hd
          rw [craft_limited s item amt r hr hc] at hd
          exact Except.noConfusion hd
        · exact ih (some a.createdAt) prev s2 ⟨amt, t, ha⟩ s' hok

/-! ## Helper lemma on the tree conversion of makeGame -/

lemma treeFold_eq_map (l : List (Nat × StoredTree)) (acc : List (Nat × Tree)) :
    l.foldl (fun a p =>
        a ++ [(p.1, ({ choppedAt := p.2.choppedAt, wood := p.2.wood } : Tree))]) acc =
      acc ++ l.map (fun p =>
        (p.1, ({ choppedAt := p.2.choppedAt, wood := p.2.wood } : Tree))) := by
  induction l generalizing acc with
  | nil => simp
  | cons p rest ih => simp [ih]

/-! ## Claim theorems -/

/-- C1, counterexample.  The claim states that the state persisted after
replay reflects the reconciled values (reconciled balance 120, hence 119.9
after the 0.1 SFL craft, with the two on-chain items present).  On the exact
input of the repository's "saves a farm" test (off-chain balance "20",
on-chain balance 120e18 wei, on-chain inventory ["1","2"], craft 5 Potato
Seed), the reconcile-then-replay pipeline of the spec yields balance 119.9
with the first two catalog items at 1 and 7 — but the state the repository's
own test pins as persisted (`savesAFarmPersisted`, transcribed from the
`updateGameStateMock` expectation) has balance 19.9 and no reconciled
entries.  The persisted state therefore does not reflect the reconciled
values. -/
theorem reconcile_dominance_cex :
    save 1000000 (some savesAFarmDoc) (120 * 10 ^ 18) [1, 2]
        [Action.crafted "Potato Seed" 5 1000000] = Except.ok reconciledReplayState ∧
      reconciledReplayState.balance = 1199/10 ∧
      getItem reconciledReplayState.inventory "Sunflower Seed" = 1 ∧
      getItem reconciledReplayState.inventory "Potato Seed" = 7 ∧
      savesAFarmPersisted.balance = 199/10 ∧
      alookup savesAFarmPersisted.inventory "Sunflower Seed" = none ∧
      getItem savesAFarmPersisted.inventory "Potato Seed" = 5 ∧
      reconciledReplayState.balance ≠ savesAFarmPersisted.balance := by
  norm_num +decide [save, processActions, processLoop, checkTimestamp, chronoViolated,
    gapViolated, densityViolated, MAX_SKEW_MS, MAX_AGE_MS, MAX_RANGE_MS, MIN_GAP_MS,
    DENSITY_WINDOW_MS, dispatch, craft, alookup, aremove, CRAFTABLES, getItem, setItem,
    addItem, reconcile, makeGame, makeInventory, fromWei, getItemUnitDecimals,
    KNOWN_ITEMS, KNOWN_IDS, INITIAL_TREES, TREE_WOOD, savesAFarmDoc, savesAFarmPersisted,
    reconciledReplayState, Action.createdAt]

/-- C1, amended.  The reconcile step itself satisfies dominance: after
reconcile the balance equals the on-chain balance (wei over 18 digits) and
every item whose converted on-chain value is positive has its inventory entry
set to that value.  But the state persisted by the save pipeline does not
reflect the reconciled values: on the "saves a farm" input it is the plain
replay of the off-chain document — balance 19.9, only the crafted Potato
Seed present — exactly as the repository's test pins. -/
theorem reconcile_dominance_amended :
    (∀ (farm : GameState) (bal : ℚ) (inv : List ℚ),
        (reconcile farm bal inv).balance = fromWei bal 18) ∧
    (∀ (farm : GameState) (bal : ℚ) (inv : List ℚ) (p : ItemName × ℚ),
        p ∈ KNOWN_ITEMS.zip inv → fromWei p.2 (getItemUnitDecimals p.1) ≠ 0 →
        getItem (reconcile farm bal inv).inventory p.1 =
          fromWei p.2 (getItemUnitDecimals p.1)) ∧
    (processActions 1000000 (makeGame savesAFarmDoc)
        [Action.crafted "Potato Seed" 5 1000000] = Except.ok replayedPersistedState ∧
      replayedPersistedState.balance = savesAFarmPersisted.balance ∧
      getItem replayedPersistedState.inventory "Potato Seed" = 5 ∧
      getItem replayedPersistedState.stock "Potato Seed" = 2 ∧
      getItem replayedPersistedState.inventory "Sunflower Seed" = 0) := by
  refine ⟨fun farm bal inv => rfl, ?_, by
    norm_num +decide [processActions, processLoop, checkTimestamp, chronoViolated,
      gapViolated, densityViolated, MAX_SKEW_MS, MAX_AGE_MS, MAX_RANGE_MS, MIN_GAP_MS,
      DENSITY_WINDOW_MS, dispatch, craft, alookup, aremove, CRAFTABLES, getItem, setItem,
      addItem, makeGame, INITIAL_TREES, TREE_WOOD, savesAFarmDoc, savesAFarmPersisted,
      replayedPersistedState, Action.createdAt]⟩
  intro farm bal inv p hm hnz
  have hl := alookup_makeInventory inv p.1 p.2 (by rw [Prod.mk.eta]; exact hm) hnz
  exact ovFold_getItem_mem _ _ _ _ (makeInventory_nodup inv) (mem_of_alookup hl)

/-- Witness for C1: the amended reconcile-dominance applied at the concrete
on-chain data of the "saves a farm" test. -/
theorem reconcile_dominance_amended_witness :
    getItem (reconcile (makeGame savesAFarmDoc) (120 * 10 ^ 18) [1, 2]).inventory
        "Potato Seed" = 2 ∧
      (reconcile (makeGame savesAFarmDoc) (120 * 10 ^ 18) [1, 2]).balance = 120 := by
  constructor
  · have h := (reconcile_dominance_amended).2.1 (makeGame savesAFarmDoc)
      (120 * 10 ^ 18) [1, 2] ("Potato Seed", 2) (by decide)
      (by norm_num [fromWei, getItemUnitDecimals])
    rw [h]
    norm_num [fromWei, getItemUnitDecimals]
  · have h := (reconcile_dominance_amended).1 (makeGame savesAFarmDoc)
      (120 * 10 ^ 18) [1, 2]
    rw [h]
    norm_num [fromWei]

/-- C2: the `item.crafted` transition, on a craftable recipe whose ingredient
costs (times amount), SFL price (times amount) and stock are all covered,
subtracts every ingredient cost × amount from the inventory, subtracts
sflPrice × amount from the balance, subtracts amount from the item's stock,
and adds amount of the item to the inventory. -/
theorem craft_transition_effect (s : GameState) (item : ItemName) (amount : ℚ)
    (r : Recipe) (hr : alookup CRAFTABLES item = some r) (hc : r.craftable = true)
    (hnd : (r.ingredients.map Prod.fst).Nodup)
    (hni : item ∉ r.ingredients.map Prod.fst)
    (hing : ∀ c ∈ r.ingredients, c.2 * amount ≤ getItem s.inventory c.1)
    (hbal : r.sflPrice * amount ≤ s.balance)
    (hstock : amount ≤ getItem s.stock item) :
    ∃ s', craft s item amount = Except.ok s' ∧
      s'.balance = s.balance - r.sflPrice * amount ∧
      getItem s'.stock item = getItem s.stock item - amount ∧
      getItem s'.inventory item = getItem s.inventory item + amount ∧
      ∀ c ∈ r.ingredients,
        getItem s'.inventory c.1 = getItem s.inventory c.1 - c.2 * amount := by
  have hany : r.ingredients.any
      (fun c => decide (getItem s.inventory c.1 < c.2 * amount)) = false := by
    by_contra hf
    rw [Bool.not_eq_false, List.any_eq_true] at hf
    obtain ⟨c, hcmem, hclt⟩ := hf
    rw [decide_eq_true_eq] at hclt
    exact absurd (hing c hcmem) (not_le.mpr hclt)
  have hcraft : craft s item amount = Except.ok
      { s with
        balance := s.balance - r.sflPrice * amount,
        stock := setItem s.stock item (getItem s.stock item - amount),
        inventory := addItem
          (r.ingredients.foldl
            (fun inv c => setItem inv c.1 (getItem inv c.1 - c.2 * amount))
            s.inventory)
          item amount } := by
    unfold craft
    rw [hr]
    simp only [hc, hany, Bool.true_eq_false, if_false, Bool.false_eq_true,
      if_neg (not_lt.mpr hbal), if_neg (not_lt.mpr hstock)]
  refine ⟨_, hcraft, rfl, getItem_setItem_self _ _ _, ?_, ?_⟩
  · show getItem (addItem _ item amount) item = _
    unfold addItem
    rw [getItem_setItem_self, ingFold_getItem_not_mem amount _ _ _ hni]
  · intro c hcmem
    have hc1 : c.1 ≠ item := by
      intro hh
      rw [← hh] at hni
      exact hni (List.mem_map.mpr ⟨c, hcmem, rfl⟩)
    show getItem (addItem _ item amount) c.1 = _
    unfold addItem
    rw [getItem_setItem_ne _ _ _ _ hc1,
      ingFold_getItem_mem amount _ _ _ c.2 hnd (by rw [Prod.mk.eta]; exact hcmem)]

/-- Witness for C2: crafting 5 Potato Seed (0.02 SFL each, no ingredients)
from the "saves a farm" document: balance 20 → 19.9, stock 7 → 2,
inventory gains 5 — the numbers the repository's test expects. -/
theorem craft_transition_effect_witness :
    ∃ s', craft (makeGame savesAFarmDoc) "Potato Seed" 5 = Except.ok s' ∧
      s'.balance = 199/10 ∧ getItem s'.stock "Potato Seed" = 2 ∧
      getItem s'.inventory "Potato Seed" = 5 := by
  obtain ⟨s', h1, h2, h3, h4, _⟩ :=
    craft_transition_effect (makeGame savesAFarmDoc) "Potato Seed" 5
      { ingredients := [], sflPrice := 1/50, craftable := true }
      (by norm_num +decide [alookup, CRAFTABLES]) rfl (by simp) (by simp) (by simp)
      (by norm_num [makeGame, savesAFarmDoc])
      (by norm_num +decide [makeGame, savesAFarmDoc, getItem, setItem, alookup, aremove])
  refine ⟨s', h1, ?_, ?_, ?_⟩
  · rw [h2]; norm_num [makeGame, savesAFarmDoc]
  · rw [h3]
    norm_num +decide [makeGame, savesAFarmDoc, getItem, setItem, alookup, aremove]
  · rw [h4]
    norm_num +decide [makeGame, savesAFarmDoc, getItem, setItem, alookup, aremove]

/-- C3: any batch containing an `item.crafted` action whose item has
`craftable = false` in the catalog is rejected by the save pipeline — no
state is ever produced, so no limited item can be obtained through it — and
the craft transition itself fails with exactly
`This item is not craftable: <item>`. -/
theorem limited_item_never_crafted (now : Int) (farm : Option StoredGameState)
    (bal : ℚ) (inv : List ℚ) (actions : List Action) (item : ItemName) (r : Recipe)
    (hr : alookup CRAFTABLES item = some r) (hc : r.craftable = false)
    (hm : ∃ amt t, Action.crafted item amt t ∈ actions) :
    (∀ s', save now farm bal inv actions ≠ Except.ok s') ∧
      (∀ (s0 : GameState) (amt : ℚ),
        craft s0 item amt = Except.error ("This item is not craftable: " ++ item)) := by
  constructor
  · intro s' hok
    unfold save at hok
    cases farm with
    | none => exact Except.noConfusion hok
    | some doc =>
      unfold processActions at hok
      cases actions with
      | nil =>
        rcases hm with ⟨amt, t, hmem⟩
        simp at hmem
      | cons a rest =>
        exact processLoop_limited_ne_ok now a.createdAt none none _ (a :: rest)
          item r hr hc hm s' hok
  · intro s0 amt
    exact craft_limited s0 item amt r hr hc

/-- Witness for C3: the "does not craft a limited edition item" test input —
crafting Chicken Coop through save fails with the pinned error and yields no
state. -/
theorem limited_item_never_crafted_witness :
    save 1000000 (some savesAFarmDoc) (120 * 10 ^ 18) [1, 2]
        [Action.crafted "Chicken Coop" 1 1000000] =
      Except.error "This item is not craftable: Chicken Coop" ∧
    save 1000000 (some savesAFarmDoc) (120 * 10 ^ 18) [1, 2]
        [Action.crafted "Chicken Coop" 1 1000000] ≠
      Except.ok (makeGame savesAFarmDoc) :=
  ⟨by decide,
   (limited_item_never_crafted 1000000 (some savesAFarmDoc) (120 * 10 ^ 18) [1, 2]
      [Action.crafted "Chicken Coop" 1 1000000] "Chicken Coop"
      { ingredients := [("Wood", 10)], sflPrice := 1, craftable := false }
      (by decide) rfl ⟨1, 1000000, by decide⟩).1 (makeGame savesAFarmDoc)⟩

/-- C4: a batch that violates any temporal-gate check (the gate returning an
error) makes the replay fail with an error and produce no state at all — in
this purely functional embedding the input state is untouched, and no
resulting state exists to be committed. -/
theorem temporal_rejection_atomic (now : Int) (s : GameState) (actions : List Action)
    (err : TemporalError) (h : temporalGate now actions = some err) :
    (∃ e, processActions now s actions = Except.error e) ∧
      ∀ s', processActions now s actions ≠ Except.ok s' := by
  have hne : ∀ s', processActions now s actions ≠ Except.ok s' := by
    intro s' hok
    cases actions with
    | nil => simp [temporalGate] at h
    | cons a rest =>
      simp only [temporalGate, List.map_cons] at h
      simp only [processActions] at hok
      exact processLoop_ne_ok_of_gate now a.createdAt none none s (a :: rest) err
        (by rw [List.map_cons]; exact h) s' hok
  refine ⟨?_, hne⟩
  cases hres : processActions now s actions with
  | error e => exact ⟨e, rfl⟩
  | ok s' => exact absurd hres (hne s')

/-- Witness for C4: the out-of-order batch of the "ensures events are in
order" test is rejected with the pinned message and yields no state. -/
theorem temporal_rejection_atomic_witness :
    processActions 0 seedFarm chronoBatch =
        Except.error "Events must be in chronological order" ∧
      (∃ e, processActions 0 seedFarm chronoBatch = Except.error e) :=
  ⟨by decide,
   (temporal_rejection_atomic 0 seedFarm chronoBatch TemporalError.chrono (by decide)).1⟩

/-- C5, counterexample.  The claim's 10 ms minimum-gap threshold is refuted
by the repository's own "ensures events are not fired too quickly" test: in
its batch every consecutive pair is at least 10 ms apart (95 ms), yet the
batch is rejected with `Event fired too quickly`. -/
theorem min_gap_claim_cex :
    (∀ p ∈ (gapBatch.map Action.createdAt).zip (gapBatch.map Action.createdAt).tail,
        (10 : Int) ≤ p.2 - p.1) ∧
      processActions 0 sellerFarm gapBatch = Except.error "Event fired too quickly" := by
  decide

/-- C5, amended: the minimum-gap threshold is 100 ms (`MIN_GAP_MS`), the
smallest round value consistent with the repository's tests (a 95 ms gap is
rejected, a 150 ms gap passes).  The gate reports `Event fired too quickly`
only when some consecutive pair is less than 100 ms apart; a batch whose
consecutive pairs are all at least 100 ms apart never receives the gap error;
and a batch with a sub-100 ms pair never passes the gate. -/
theorem min_gap_is_hundred_ms (now : Int) (actions : List Action) :
    TemporalError.gap.message = "Event fired too quickly" ∧
    (temporalGate now actions = some TemporalError.gap →
      ∃ p ∈ (actions.map Action.createdAt).zip (actions.map Action.createdAt).tail,
        p.2 - p.1 < MIN_GAP_MS) ∧
    ((∀ p ∈ (actions.map Action.createdAt).zip (actions.map Action.createdAt).tail,
        MIN_GAP_MS ≤ p.2 - p.1) →
      temporalGate now actions ≠ some TemporalError.gap) ∧
    ((∃ p ∈ (actions.map Action.createdAt).zip (actions.map Action.createdAt).tail,
        p.2 - p.1 < MIN_GAP_MS) →
      temporalGate now actions ≠ none) := by
  have hsound : temporalGate now actions = some TemporalError.gap →
      ∃ p ∈ (actions.map Action.createdAt).zip (actions.map Action.createdAt).tail,
        p.2 - p.1 < MIN_GAP_MS := by
    intro h
    cases hm : actions.map Action.createdAt with
    | nil =>
      unfold temporalGate at h
      rw [hm] at h
      simp at h
    | cons t ts' =>
      unfold temporalGate at h
      rw [hm] at h
      rcases gateLoop_gap_sound now t none none (t :: ts') h with hL | ⟨p, t0, hp, _, _⟩
      · exact hL
      · exact absurd hp (by simp)
  refine ⟨rfl, hsound, ?_, ?_⟩
  · intro hall heq
    rcases hsound heq with ⟨p, hp, hlt⟩
    exact absurd (hall p hp) (not_le.mpr hlt)
  · rintro ⟨p, hp, hlt⟩
    cases hm : actions.map Action.createdAt with
    | nil =>
      rw [hm] at hp
      simp at hp
    | cons t ts' =>
      rw [hm] at hp
      unfold temporalGate
      rw [hm]
      apply gateLoop_ne_none_of_gap
      right
      exact ⟨p, hp, hlt⟩

/-- Witness for C5: the "processes multiple events" batch (gap 60 s) never
receives the gap error, and the 95 ms batch never passes the gate. -/
theorem min_gap_is_hundred_ms_witness :
    temporalGate 0 multiBatch ≠ some TemporalError.gap ∧
      temporalGate 0 gapBatch ≠ none :=
  ⟨(min_gap_is_hundred_ms 0 multiBatch).2.2.1 (by decide),
   (min_gap_is_hundred_ms 0 gapBatch).2.2.2
     ⟨((-100 : Int), (-5 : Int)), by decide, by decide⟩⟩

/-- C6, counterexample.  The claim's rule — reject exactly when some 300 ms
window holds more than 2 actions — is refuted by the repository's own
"humanly possible" test batch (T−400 ms, T−250 ms, T−50 ms): for this
chronologically sorted batch a 300 ms window with 3 actions exists iff some
action comes within 300 ms of the action two before it, and the only such
span is 350 ms > 300 ms; yet the batch is rejected with
`Too many events in a short time`. -/
theorem density_claim_cex :
    (∀ p ∈ (densityBatch.map Action.createdAt).zip
        ((densityBatch.map Action.createdAt).tail.tail), (300 : Int) < p.2 - p.1) ∧
      processActions 0 sellerFarm densityBatch =
        Except.error "Too many events in a short time" := by
  refine ⟨by decide, ?_⟩
  norm_num +decide [processActions, processLoop, checkTimestamp, chronoViolated,
    gapViolated, densityViolated, MAX_SKEW_MS, MAX_AGE_MS, MAX_RANGE_MS, MIN_GAP_MS,
    DENSITY_WINDOW_MS, dispatch, sellItem, alookup, aremove, SELL_PRICES, getItem,
    setItem, sellerFarm, Action.createdAt]

/-- C6, amended: the density check uses a 500 ms window (`DENSITY_WINDOW_MS`):
an action must come at least 500 ms after the action two before it, i.e. no
500 ms window may hold more than 2 actions — 500 ms being the smallest round
value above the 350 ms span the test requires to be rejected.  The gate
reports `Too many events in a short time` only when some action follows the
action two before it by less than 500 ms; batches without such a triple never
receive the density error; batches with one never pass the gate; and in
particular the three sells at T−400/−250/−50 ms are rejected with exactly
that error. -/
theorem density_cap_is_500_ms (now : Int) (actions : List Action) :
    TemporalError.density.message = "Too many events in a short time" ∧
    (temporalGate now actions = some TemporalError.density →
      ∃ p ∈ (actions.map Action.createdAt).zip
          ((actions.map Action.createdAt).tail.tail),
        p.2 - p.1 < DENSITY_WINDOW_MS) ∧
    ((∀ p ∈ (actions.map Action.createdAt).zip
          ((actions.map Action.createdAt).tail.tail),
        DENSITY_WINDOW_MS ≤ p.2 - p.1) →
      temporalGate now actions ≠ some TemporalError.density) ∧
    ((∃ p ∈ (actions.map Action.createdAt).zip
          ((actions.map Action.createdAt).tail.tail),
        p.2 - p.1 < DENSITY_WINDOW_MS) →
      temporalGate now actions ≠ none) ∧
    processActions 0 sellerFarm densityBatch =
      Except.error "Too many events in a short time" := by
  have hsound : temporalGate now actions = some TemporalError.density →
      ∃ p ∈ (actions.map Action.createdAt).zip
          ((actions.map Action.createdAt).tail.tail),
        p.2 - p.1 < DENSITY_WINDOW_MS := by
    intro h
    cases hm : actions.map Action.createdAt with
    | nil =>
      unfold temporalGate at h
      rw [hm] at h
      simp at h
    | cons t ts' =>
      unfold temporalGate at h
      rw [hm] at h
      rcases gateLoop_density_sound now t none none (t :: ts') h with
        hA | ⟨q, t0, hq, _, _⟩ | ⟨p, t1, hp, _, _⟩
      · exact hA
      · exact absurd hq (by simp)
      · exact absurd hp (by simp)
  refine ⟨rfl, hsound, ?_, ?_, by
    norm_num +decide [processActions, processLoop, checkTimestamp, chronoViolated,
      gapViolated, densityViolated, MAX_SKEW_MS, MAX_AGE_MS, MAX_RANGE_MS, MIN_GAP_MS,
      DENSITY_WINDOW_MS, dispatch, sellItem, alookup, aremove, SELL_PRICES, getItem,
      setItem, sellerFarm, Action.createdAt]⟩
  · intro hall heq
    rcases hsound heq with ⟨p, hp, hlt⟩
    exact absurd (hall p hp) (not_le.mpr hlt)
  · rintro ⟨p, hp, hlt⟩
    cases hm : actions.map Action.createdAt with
    | nil =>
      rw [hm] at hp
      simp at hp
    | cons t ts' =>
      rw [hm] at hp
      unfold temporalGate
      rw [hm]
      apply gateLoop_ne_none_of_density
      right; right
      exact ⟨p, hp, hlt⟩

/-- Witness for C6: a two-action batch can never receive the density error,
and the three-sell test batch never passes the gate. -/
theorem density_cap_is_500_ms_witness :
    temporalGate 0 multiBatch ≠ some TemporalError.density ∧
      temporalGate 0 densityBatch ≠ none :=
  ⟨(density_cap_is_500_ms 0 multiBatch).2.2.1 (by decide),
   (density_cap_is_500_ms 0 densityBatch).2.2.2.1
     ⟨((-400 : Int), (-50 : Int)), by decide, by decide⟩⟩

/-- C7: the withdraw handler accepts a body only if every id is in
`VALID_IDS` (the on-chain ids of the tools, limited items and resources), and
a body holding any id outside that set is rejected before any signing payload
is produced. -/
theorem withdraw_ids_validated (verifyOk : Bool) (network : String)
    (whitelisted : Bool) (b : WithdrawBody) :
    (∀ p, handler verifyOk network whitelisted b = Except.ok p →
        ∀ id ∈ b.ids, id ∈ VALID_IDS) ∧
    ((∃ id ∈ b.ids, id ∉ VALID_IDS) →
        ∃ e, handler verifyOk network whitelisted b = Except.error e) := by
  constructor
  · intro p hok id hid
    by_cases hv : schemaValidate b = false
    · unfold handler at hok
      rw [if_pos hv] at hok
      exact Except.noConfusion hok
    · have hv' : schemaValidate b = true := by simpa using hv
      unfold schemaValidate at hv'
      simp only [Bool.and_eq_true, List.all_eq_true] at hv'
      have hcontains := hv'.1.1 id hid
      simpa using hcontains
  · rintro ⟨id, hid, hnot⟩
    have hv : schemaValidate b = false := by
      by_contra hf
      have hv' : schemaValidate b = true := by simpa using hf
      unfold schemaValidate at hv'
      simp only [Bool.and_eq_true, List.all_eq_true] at hv'
      exact hnot (by simpa using hv'.1.1 id hid)
    refine ⟨"Validation error", ?_⟩
    unfold handler
    rw [if_pos hv]

/-- Witness for C7: a body with id 999 (not withdrawable) is rejected. -/
theorem withdraw_ids_validated_witness :
    ∃ e, handler true "mumbai" true badIdBody = Except.error e :=
  (withdraw_ids_validated true "mumbai" true badIdBody).2 ⟨999, by decide, by decide⟩

/-- C8, counterexample.  The claim states the handler rejects every body with
`ids.length ≠ amounts.length`; but a body with one id and no amounts passes
the schema (both arrays only carry `.min(0)`) and the handler forwards it to
the signer. -/
theorem withdraw_length_unchecked_cex :
    mismatchedBody.ids.length ≠ mismatchedBody.amounts.length ∧
      handler true "mainnet" true mismatchedBody = Except.ok
        { sender := "0xA9", farmId := 13, sessionId := "0x01", sfl := 5,
          ids := [301], amounts := [], tax := 3000 } := by
  decide

/-- C8, amended: the handler performs no ids/amounts length-equality check.
Any body that passes the per-element schema validation, account verification
and the whitelist gate is forwarded to the signer with `ids` and `amounts`
exactly as given, whatever their lengths. -/
theorem withdraw_length_unchecked (verifyOk : Bool) (network : String)
    (whitelisted : Bool) (b : WithdrawBody) (hs : schemaValidate b = true)
    (hv : verifyOk = true) (hw : network = "mumbai" ∨ whitelisted = true) :
    handler verifyOk network whitelisted b = Except.ok
      { sender := b.sender, farmId := b.farmId, sessionId := b.sessionId,
        sfl := b.sfl, ids := b.ids, amounts := b.amounts, tax := getTax b.sfl } := by
  unfold handler
  rw [if_neg (by simp [hs]), if_neg (by simp [hv]), if_neg ?hwl]
  case hwl =>
    rcases hw with hw | hw
    · exact fun hcon => hcon.1 hw
    · exact fun hcon => by rw [hw] at hcon; exact absurd hcon.2 (by simp)

/-- Witness for C8: the mismatched body (1 id, 0 amounts) is forwarded with
the arrays as given. -/
theorem withdraw_length_unchecked_witness :
    handler true "mumbai" true mismatchedBody = Except.ok
      { sender := "0xA9", farmId := 13, sessionId := "0x01", sfl := 5,
        ids := [301], amounts := [], tax := 3000 } :=
  withdraw_length_unchecked true "mumbai" true mismatchedBody (by decide) rfl
    (Or.inl rfl)

/-- C9: in the SunflowerLandToken constructor the statement `_team = team;`
assigns the parameter from storage, not the reverse, so for every pair of
constructor arguments (and every `msg.sender`) the `team` storage variable is
never initialized from the `_team` argument: it stays the zero address, and
the constructed state does not depend on `_team` at all. -/
theorem token_team_never_initialized (game team sender : Nat) :
    (constructorRun game team sender).team = 0 ∧
      constructorRun game team sender = constructorRun game 0 sender :=
  ⟨rfl, rfl⟩

/-- C10: for a stored farm document without a `trees` field, makeGame falls
back to the catalog default `INITIAL_TREES` (converted entry-for-entry); when
`trees` is present, every stored tree is converted entry-for-entry with the
same index, the same `choppedAt`, and its `wood` value parsed as a decimal. -/
theorem makeGame_trees_default_or_converted (g : StoredGameState) :
    (g.trees = none →
      (makeGame g).trees = INITIAL_TREES.map
        (fun p => (p.1, ({ choppedAt := p.2.choppedAt, wood := p.2.wood } : Tree)))) ∧
    (∀ ts, g.trees = some ts →
      (makeGame g).trees = ts.map
        (fun p => (p.1, ({ choppedAt := p.2.choppedAt, wood := p.2.wood } : Tree)))) := by
  constructor
  · intro h
    unfold makeGame
    rw [h]
    simpa using treeFold_eq_map INITIAL_TREES []
  · intro ts h
    unfold makeGame
    rw [h]
    simpa using treeFold_eq_map ts []

/-- Witness for C10: the treeless "saves a farm" document gets the default
trees; a document with one stored tree gets exactly its conversion. -/
theorem makeGame_trees_default_or_converted_witness :
    (makeGame savesAFarmDoc).trees = INITIAL_TREES.map
        (fun p => (p.1, ({ choppedAt := p.2.choppedAt, wood := p.2.wood } : Tree))) ∧
      (makeGame storedWithTrees).trees = [(0, ({ choppedAt := 7, wood := 2 } : Tree))] :=
  ⟨(makeGame_trees_default_or_converted savesAFarmDoc).1 rfl,
   by
    have h := (makeGame_trees_default_or_converted storedWithTrees).2
      [(0, { choppedAt := 7, wood := 2 })] rfl
    simpa using h⟩

end SFL
